import Mathlib

/-!
Verification of the Mooncake coordination core against its specification.

The development shallowly embeds the two source files of the repository:

* `src/mooncake-store/src/master.cpp` — the master entry point: flag
  defaults, RPC server construction, handler registration, exit code.
* `src/mooncake-transfer-engine/include/transfer_metadata_plugin.h` — the
  `MetadataStoragePlugin` and `HandShakePlugin` contracts.

Components whose implementation is not part of the repository fragment
(the `WrappedMasterService` body, the plugin backends, the ObjectDirectory
state machine) are modelled from the specification; each such definition
carries a doc comment beginning `Modelled from the spec:`.
-/

namespace Mooncake

/-! ## Structured documents (Json::Value / AttributeDocument) -/

/-- A structured document value: nested maps, arrays and scalars.  This is
the shallow embedding of `Json::Value`, the AttributeDocument type used by
both plugin contracts. -/
inductive Json where
  | null : Json
  | bool (b : Bool) : Json
  | num (n : Int) : Json
  | str (s : String) : Json
  | arr (elems : List Json) : Json
  | obj (fields : List (String × Json)) : Json

/-! ## Flags (gflags definitions in master.cpp)

`DEFINE_int32(port, 50051, ...)`, `DEFINE_int32(max_threads, 4, ...)`,
`DEFINE_bool(enable_gc, false, ...)`. -/

/-- The three gflags of master.cpp.  The two `int32` flags are embedded as
`Int` (gflags keeps them inside the int32 range). -/
structure Flags where
  port : Int
  max_threads : Int
  enable_gc : Bool
deriving DecidableEq

/-- The default values given in the three `DEFINE_` lines of master.cpp. -/
def defaultFlags : Flags :=
  { port := 50051, max_threads := 4, enable_gc := false }

/-- One gflags override `--name=value` applied to the current flag values. -/
def setFlag (f : Flags) (name value : String) : Flags :=
  if name = "port" then { f with port := (value.toInt?).getD f.port }
  else if name = "max_threads" then
    { f with max_threads := (value.toInt?).getD f.max_threads }
  else if name = "enable_gc" then
    { f with enable_gc :=
        if value = "true" then true
        else if value = "false" then false
        else f.enable_gc }
  else f

/-- `gflags::ParseCommandLineFlags`: starts from the `DEFINE_` defaults and
applies the command-line overrides in order. -/
def parseCommandLineFlags (args : List (String × String)) : Flags :=
  args.foldl (fun f a => setFlag f a.1 a.2) defaultFlags

/-! ## The RPC server as main observes it -/

/-- `static_cast<int>` applied to a 32-bit unsigned value (the result of
`std::thread::hardware_concurrency`): reduce modulo 2^32, then reinterpret
the range [2^31, 2^32) as negative. -/
def toInt32ofUInt (n : Nat) : Int :=
  if n % 2 ^ 32 < 2 ^ 31 then ((n % 2 ^ 32 : Nat) : Int)
  else ((n % 2 ^ 32 : Nat) : Int) - 2 ^ 32

/-- The observable state of the `coro_rpc_server`: the two constructor
arguments and the names of the handlers registered so far, in registration
order. -/
structure RpcServer where
  thread : Int
  port : Int
  handlers : List String
deriving DecidableEq

/-- The `coro_rpc_server(thread, port)` constructor: no handler is
registered yet. -/
def coroRpcServer (thread port : Int) : RpcServer :=
  { thread := thread, port := port, handlers := [] }

/-- `server.register_handler<&WrappedMasterService::Name>(&svc)`: appends
the operation name to the registration list. -/
def RpcServer.registerHandler (s : RpcServer) (name : String) : RpcServer :=
  { s with handlers := s.handlers ++ [name] }

/-- The wrapped master service as constructed by main: it records the
`enable_gc` flag it was built from. -/
structure WrappedMasterService where
  gcEnabled : Bool
deriving DecidableEq

/-- `WrappedMasterService wrapped_master_service(FLAGS_enable_gc)`. -/
def mkWrappedMasterService (enableGc : Bool) : WrappedMasterService :=
  { gcEnabled := enableGc }

/-- Modelled from the spec: the body of `WrappedMasterService` is not under
src/.  Section 4.3 says the garbage collector "runs as a periodic
background sweep, only active if a configuration flag enables it (matching
the source enable_gc toggle)", so garbage-collection activity is enabled in
the service exactly when the flag it was constructed with is true. -/
def gcActive (svc : WrappedMasterService) : Bool :=
  svc.gcEnabled

/-- The server built by main: `coro_rpc_server server(std::min(FLAGS_max_threads,
static_cast<int>(std::thread::hardware_concurrency())), FLAGS_port)` followed by
the seven `register_handler` calls, in source order. -/
def mainServer (f : Flags) (hwConcurrency : Nat) : RpcServer :=
  let server := coroRpcServer (min f.max_threads (toInt32ofUInt hwConcurrency)) f.port
  ((((((server.registerHandler "GetReplicaList").registerHandler
    "PutStart").registerHandler "PutEnd").registerHandler
    "PutRevoke").registerHandler "Remove").registerHandler
    "MountSegment").registerHandler "UnmountSegment"

/-- The service object main constructs and registers the handlers on. -/
def mainService (f : Flags) : WrappedMasterService :=
  mkWrappedMasterService f.enable_gc

/-- Conversion of a C++ bool to int, as in `return` from `int main`. -/
def boolToInt (b : Bool) : Int :=
  if b then 1 else 0

/-- `return !server.start();` — `startOk` is the contextual bool conversion
of the value returned by `server.start()`, which is true exactly when the
server started successfully. -/
def mainExitCode (startOk : Bool) : Int :=
  boolToInt (!startOk)

/-! ## Theorems for master.cpp -/

/-- C1: main registers exactly the seven operations GetReplicaList,
PutStart, PutEnd, PutRevoke, Remove, MountSegment, UnmountSegment on the
RPC server — each of the seven appears, and nothing else is registered. -/
theorem main_registers_exactly_seven_ops (f : Flags) (hw : Nat) :
    (mainServer f hw).handlers =
      ["GetReplicaList", "PutStart", "PutEnd", "PutRevoke",
       "Remove", "MountSegment", "UnmountSegment"] := by
  rfl

/-- C2: the worker-thread count the RPC server is constructed with is the
minimum of the configured maximum and the hardware concurrency, for every
hardware concurrency representable in `int` (the source casts the unsigned
concurrency with `static_cast<int>`). -/
theorem main_server_thread_count (f : Flags) (hw : Nat) (hhw : hw < 2 ^ 31) :
    (mainServer f hw).thread = min f.max_threads (hw : Int) := by
  have hmod : hw % 2 ^ 32 = hw :=
    Nat.mod_eq_of_lt (lt_trans hhw (by norm_num))
  have h32 : toInt32ofUInt hw = (hw : Int) := by
    simp only [toInt32ofUInt, hmod]
    rw [if_pos hhw]
  simp [mainServer, coroRpcServer, RpcServer.registerHandler, h32]

/-- Witness for C2 at the default flags and a hardware concurrency of 8:
min 4 8 = 4 worker threads. -/
theorem main_server_thread_count_witness :
    (8 : Nat) < 2 ^ 31 ∧ (mainServer defaultFlags 8).thread = min defaultFlags.max_threads (8 : Int) :=
  ⟨by norm_num, main_server_thread_count defaultFlags 8 (by norm_num)⟩

/-- C3: the enable_gc flag is passed unchanged into the construction of the
master service, and garbage-collection activity is enabled in the service
exactly when that flag is true — in particular, when the flag is false no
garbage collection is active. -/
theorem gc_enabled_iff_flag (f : Flags) :
    (mainService f).gcEnabled = f.enable_gc ∧ gcActive (mainService f) = f.enable_gc := by
  exact ⟨rfl, rfl⟩

/-- C9: with no command-line flags supplied, the configuration is port
50051, max_threads 4, enable_gc false. -/
theorem default_flags_values :
    parseCommandLineFlags [] =
      { port := 50051, max_threads := 4, enable_gc := false } := by
  rfl

/-- C10: main returns the logical negation of the value returned by
server.start, so the process exit status is 0 exactly when starting the
server succeeds and non-zero otherwise. -/
theorem main_exit_code_spec (startOk : Bool) :
    mainExitCode startOk = boolToInt (!startOk) ∧
      (mainExitCode startOk = 0 ↔ startOk = true) ∧
      (mainExitCode startOk ≠ 0 ↔ startOk = false) := by
  cases startOk <;> simp [mainExitCode, boolToInt]

/-! ## MetadataStoragePlugin contract (transfer_metadata_plugin.h)

The header declares a pure-virtual interface: `bool get(key, Json::Value&)`,
`bool set(key, const Json::Value&)`, `bool remove(key)`.  A `get` that
returns false delivers no value, so the pair of return flag and out
parameter is embedded as `Option Json`. -/

/-- The `MetadataStoragePlugin` interface: any backend is a triple of
operations with the declared signatures. -/
structure MetadataStoragePlugin where
  get : String → Option Json
  set : String → Json → Bool
  remove : String → Bool

/-- Outcome of `get` as worded in spec section 4.4: the stored document or
NotFound. -/
inductive GetOutcome where
  | found (doc : Json) : GetOutcome
  | notFound : GetOutcome

/-- Outcome of `set` as worded in spec section 4.4: success or StoreError. -/
inductive SetOutcome where
  | stored : SetOutcome
  | storeError : SetOutcome

/-- Outcome of `remove` as worded in spec section 4.4: success or
NotFound. -/
inductive RemoveOutcome where
  | removed : RemoveOutcome
  | notFound : RemoveOutcome

/-- The MetadataStore contract from spec section 4.4, written from the
words of the spec for comparison with the source interface. -/
structure MetadataStoreContract where
  get : String → GetOutcome
  set : String → Json → SetOutcome
  remove : String → RemoveOutcome

/-- How the source-level `get` result reads as a contract outcome. -/
def toGetOutcome : Option Json → GetOutcome
  | some doc => GetOutcome.found doc
  | none => GetOutcome.notFound

/-- How the source-level `set` result reads as a contract outcome. -/
def toSetOutcome (ok : Bool) : SetOutcome :=
  if ok then SetOutcome.stored else SetOutcome.storeError

/-- How the source-level `remove` result reads as a contract outcome. -/
def toRemoveOutcome (ok : Bool) : RemoveOutcome :=
  if ok then RemoveOutcome.removed else RemoveOutcome.notFound

/-- The contract view of a backend implementing the source interface. -/
def MetadataStoragePlugin.contractView (p : MetadataStoragePlugin) :
    MetadataStoreContract :=
  { get := fun key => toGetOutcome (p.get key),
    set := fun key doc => toSetOutcome (p.set key doc),
    remove := fun key => toRemoveOutcome (p.remove key) }

/-! ## HandShakePlugin contract (transfer_metadata_plugin.h) -/

/-- What the network does during the blocking wait of a handshake client
call: the peer replies with its attributes, or stays silent past the
timeout, or the connection fails. -/
inductive NetEvent where
  | replied (peerAttrs : Json) : NetEvent
  | silent : NetEvent
  | connRefused : NetEvent

/-- Result of the handshake client operation. -/
inductive HandshakeResult where
  | ok (peerAttrs : Json) : HandshakeResult
  | handshakeFailed : HandshakeResult
  | timeout : HandshakeResult

/-- The payload the handshake client writes to the peer after connecting:
its own local attribute document, unchanged. -/
def handshakeSentPayload (localAttrs : Json) : Json :=
  localAttrs

/-- Modelled from the spec: the implementation of `HandShakePlugin::send`
is not under src/ (only its declaration is).  Spec section 4.5, Client:
opens a connection, sends local attributes, blocks until the peer
attributes are received or a timeout/connection error occurs; returns
HandshakeFailed or Timeout on failure.  The outcome of the bounded
blocking wait is passed in as a `NetEvent`. -/
def handshakeSend (_hostOrIp : String) (_rpcPort : Nat) (_localAttrs : Json)
    (ev : NetEvent) : HandshakeResult :=
  match ev with
  | NetEvent.replied peerAttrs => HandshakeResult.ok peerAttrs
  | NetEvent.silent => HandshakeResult.timeout
  | NetEvent.connRefused => HandshakeResult.handshakeFailed

/-- What the daemon does with one inbound connection attempt. -/
inductive DaemonReply where
  | attrsSent (localAttrs : Json) : DaemonReply
  | rejected (status : Int) : DaemonReply

/-- Modelled from the spec: the implementation of
`HandShakePlugin::startDaemon` is not under src/ (only its declaration and
the `OnReceiveCallBack` type are).  Spec section 4.5, Daemon: for every
inbound connection attempt, invokes `onReceive(peerAttrs)` which returns a
status and the local attributes; a zero status sends the local attributes
back, a non-zero status rejects the connection attempt. -/
def daemonHandleConnection (onRecvCallback : Json → Int × Json)
    (peerAttrs : Json) : DaemonReply :=
  let r := onRecvCallback peerAttrs
  if r.1 = 0 then DaemonReply.attrsSent r.2 else DaemonReply.rejected r.1

/-- A daemon serving a list of accepted inbound connection attempts: each
is handled independently by one callback invocation. -/
def daemonRun (onRecvCallback : Json → Int × Json) (conns : List Json) :
    List DaemonReply :=
  conns.map (daemonHandleConnection onRecvCallback)

/-! ## The Create factories -/

/-- The scheme of a connection descriptor: scans the character list for the
first "://" separator. -/
def breakOnSchemeSep : List Char → Option (List Char × List Char)
  | [] => none
  | c :: rest =>
    if c = ':' then
      match rest with
      | '/' :: '/' :: tail => some ([], tail)
      | _ => (breakOnSchemeSep rest).map fun p => (c :: p.1, p.2)
    else (breakOnSchemeSep rest).map fun p => (c :: p.1, p.2)

/-- Parses a connection descriptor of the form scheme://host:port,
returning the scheme when the string has that form. -/
def connScheme (conn : String) : Option String :=
  match breakOnSchemeSep conn.toList with
  | some (schemeChars, rest) =>
      if rest.contains ':' then some (String.mk schemeChars) else none
  | none => none

/-- The metadata-store backends the spec names: external coordination
services ("etcd://host:port", "redis://host:port") and an in-process map
for tests. -/
inductive MetadataBackend where
  | etcd : MetadataBackend
  | redis : MetadataBackend
  | inProcessMap : MetadataBackend
deriving DecidableEq

/-- The handshake backends: a reference socket implementation and an
in-process channel for tests. -/
inductive HandshakeBackend where
  | socket : HandshakeBackend
  | inProcessChannel : HandshakeBackend
deriving DecidableEq

/-- Modelled from the spec: the registry of metadata-store factories keyed
by scheme (spec section 6: scheme selects backend implementation via a
registry of factories). -/
def metadataBackendRegistry : List (String × MetadataBackend) :=
  [("etcd", MetadataBackend.etcd), ("redis", MetadataBackend.redis),
   ("memory", MetadataBackend.inProcessMap)]

/-- Modelled from the spec: the registry of handshake factories keyed by
scheme. -/
def handshakeBackendRegistry : List (String × HandshakeBackend) :=
  [("tcp", HandshakeBackend.socket), ("memory", HandshakeBackend.inProcessChannel)]

/-- Modelled from the spec: the definition of
`MetadataStoragePlugin::Create` is not under src/ (only its declaration
is).  The factory parses the connection descriptor and instantiates the
backend the scheme selects in the registry; the result identifies which
implementation was instantiated. -/
def MetadataStoragePlugin.Create (connString : String) : Option MetadataBackend :=
  (connScheme connString).bind fun scheme => metadataBackendRegistry.lookup scheme

/-- Modelled from the spec: the definition of `HandShakePlugin::Create` is
not under src/ (only its declaration is).  Same factory shape as the
metadata-store one. -/
def HandShakePlugin.Create (connString : String) : Option HandshakeBackend :=
  (connScheme connString).bind fun scheme => handshakeBackendRegistry.lookup scheme

/-! ## Theorems for the plugin contracts -/

/-- C4: every backend of the MetadataStoragePlugin interface satisfies the
contract — at the interface, `get` distinguishes the stored document from
NotFound, `set` distinguishes success from StoreError, and `remove`
distinguishes success from NotFound. -/
theorem metadata_plugin_meets_contract (p : MetadataStoragePlugin)
    (key : String) (doc : Json) :
    (∀ d, p.contractView.get key = GetOutcome.found d ↔ p.get key = some d) ∧
    (p.contractView.get key = GetOutcome.notFound ↔ p.get key = none) ∧
    (p.contractView.set key doc = SetOutcome.stored ↔ p.set key doc = true) ∧
    (p.contractView.set key doc = SetOutcome.storeError ↔ p.set key doc = false) ∧
    (p.contractView.remove key = RemoveOutcome.removed ↔ p.remove key = true) ∧
    (p.contractView.remove key = RemoveOutcome.notFound ↔ p.remove key = false) := by
  refine ⟨?_, ?_, ?_, ?_, ?_, ?_⟩
  · intro d
    cases h : p.get key <;>
      simp [MetadataStoragePlugin.contractView, toGetOutcome, h]
  · cases h : p.get key <;>
      simp [MetadataStoragePlugin.contractView, toGetOutcome, h]
  · cases h : p.set key doc <;>
      simp [MetadataStoragePlugin.contractView, toSetOutcome, h]
  · cases h : p.set key doc <;>
      simp [MetadataStoragePlugin.contractView, toSetOutcome, h]
  · cases h : p.remove key <;>
      simp [MetadataStoragePlugin.contractView, toRemoveOutcome, h]
  · cases h : p.remove key <;>
      simp [MetadataStoragePlugin.contractView, toRemoveOutcome, h]

/-- C5: the handshake client sends the local attributes and always returns
— with the peer attribute document when the peer replies, with Timeout
when the peer never responds within the bound, and with HandshakeFailed on
a connection error; no other outcome exists. -/
theorem handshake_send_outcomes (hostOrIp : String) (rpcPort : Nat)
    (localAttrs : Json) (ev : NetEvent) :
    handshakeSentPayload localAttrs = localAttrs ∧
    (∀ peerAttrs, handshakeSend hostOrIp rpcPort localAttrs ev = HandshakeResult.ok peerAttrs ↔
      ev = NetEvent.replied peerAttrs) ∧
    (handshakeSend hostOrIp rpcPort localAttrs ev = HandshakeResult.timeout ↔
      ev = NetEvent.silent) ∧
    (handshakeSend hostOrIp rpcPort localAttrs ev = HandshakeResult.handshakeFailed ↔
      ev = NetEvent.connRefused) := by
  refine ⟨rfl, ?_, ?_, ?_⟩ <;> cases ev <;> simp [handshakeSend]

/-- C6: for every accepted inbound connection attempt the daemon invokes
the registered callback on the peer attributes; a zero status sends the
returned local attributes back, a non-zero status rejects the attempt. -/
theorem daemon_connection_outcomes (onRecvCallback : Json → Int × Json)
    (peerAttrs : Json) (conns : List Json) :
    (∀ l, daemonHandleConnection onRecvCallback peerAttrs = DaemonReply.attrsSent l ↔
      (onRecvCallback peerAttrs).1 = 0 ∧ (onRecvCallback peerAttrs).2 = l) ∧
    (∀ s, daemonHandleConnection onRecvCallback peerAttrs = DaemonReply.rejected s ↔
      (onRecvCallback peerAttrs).1 = s ∧ s ≠ 0) ∧
    daemonRun onRecvCallback conns =
      conns.map (daemonHandleConnection onRecvCallback) := by
  refine ⟨?_, ?_, rfl⟩
  · intro l
    by_cases h : (onRecvCallback peerAttrs).1 = 0 <;>
      simp [daemonHandleConnection, h]
  · intro s
    by_cases h : (onRecvCallback peerAttrs).1 = 0 <;>
      simp [daemonHandleConnection, h] <;> omega

/-- C7: both Create factories select the concrete backend implementation
from the scheme of a scheme://host:port connection descriptor — the chosen
backend is the registry entry for the scheme, so descriptors with the same
scheme select the same implementation. -/
theorem create_selects_backend_by_scheme (conn otherConn scheme : String)
    (h1 : connScheme conn = some scheme)
    (h2 : connScheme otherConn = some scheme) :
    MetadataStoragePlugin.Create conn = metadataBackendRegistry.lookup scheme ∧
    HandShakePlugin.Create conn = handshakeBackendRegistry.lookup scheme ∧
    MetadataStoragePlugin.Create conn = MetadataStoragePlugin.Create otherConn ∧
    HandShakePlugin.Create conn = HandShakePlugin.Create otherConn := by
  simp [MetadataStoragePlugin.Create, HandShakePlugin.Create, h1, h2]

/-- Witness for C7 at two etcd descriptors with distinct hosts and ports:
both parse to the scheme etcd and select the etcd backend. -/
theorem create_selects_backend_by_scheme_witness :
    connScheme "etcd://hostA:2379" = some "etcd" ∧
    connScheme "etcd://hostB:12345" = some "etcd" ∧
    (MetadataStoragePlugin.Create "etcd://hostA:2379" =
        metadataBackendRegistry.lookup "etcd" ∧
      HandShakePlugin.Create "etcd://hostA:2379" =
        handshakeBackendRegistry.lookup "etcd" ∧
      MetadataStoragePlugin.Create "etcd://hostA:2379" =
        MetadataStoragePlugin.Create "etcd://hostB:12345" ∧
      HandShakePlugin.Create "etcd://hostA:2379" =
        HandShakePlugin.Create "etcd://hostB:12345") :=
  ⟨by decide, by decide,
    create_selects_backend_by_scheme "etcd://hostA:2379" "etcd://hostB:12345"
      "etcd" (by decide) (by decide)⟩

/-! ## ObjectDirectory Put state machine (spec sections 3, 4.2, 5)

The ObjectDirectory implementation is not under src/; the definitions
below are modelled from the spec.  Spec section 5 serializes all mutating
operations on the same key, so a race of concurrent PutStart calls is
embedded as the sequential application of the calls in the order the
per-key lock admits them. -/

/-- One allocated replica placement: segment, byte offset, length (spec
section 4.2, PutStart result). -/
structure ReplicaPlacement where
  segment : Nat
  offset : Nat
  length : Nat
deriving DecidableEq

/-- Modelled from the spec: a PutTransaction record — object key,
allocated replica set, start time, owning client token (spec section 3). -/
structure PutTransaction where
  key : String
  allocated : List ReplicaPlacement
  startTime : Nat
  clientToken : Nat
deriving DecidableEq

/-- Object state as tracked by the directory; Absent and Removed objects
have no entry. -/
inductive ObjState where
  | Putting : ObjState
  | Complete : ObjState
deriving DecidableEq

/-- The directory state: the active put transactions (a plain list, so
that multiplicity per key is expressible) and the object table. -/
structure DirState where
  txns : List PutTransaction
  objects : List (String × ObjState)
deriving DecidableEq

/-- Result of PutStart: the allocated placements, or Conflict, or
InsufficientCapacity. -/
inductive PutStartResult where
  | placements (ps : List ReplicaPlacement) : PutStartResult
  | conflict : PutStartResult
  | insufficientCapacity : PutStartResult
deriving DecidableEq

/-- Result of PutEnd / PutRevoke / Remove. -/
inductive AckResult where
  | ack : AckResult
  | notFound : AckResult
deriving DecidableEq

/-- Whether an active transaction for the key exists. -/
def hasTxn (st : DirState) (key : String) : Bool :=
  st.txns.any fun t => t.key == key

/-- Whether the object with the key is in state Complete. -/
def isComplete (st : DirState) (key : String) : Bool :=
  st.objects.lookup key == some ObjState.Complete

/-- Modelled from the spec: PutStart (spec section 4.2) — fails Conflict
if a transaction already exists for the key or the object is already
Complete; otherwise asks SegmentRegistry.AllocateSpace, whose outcome is
passed in as `alloc` (`none` = InsufficientCapacity, in which case no
object is created); on success records the object in Putting state plus a
PutTransaction and returns the placements. -/
def putStart (st : DirState) (key : String) (clientToken now : Nat)
    (alloc : Option (List ReplicaPlacement)) : DirState × PutStartResult :=
  if hasTxn st key || isComplete st key then (st, PutStartResult.conflict)
  else
    match alloc with
    | none => (st, PutStartResult.insufficientCapacity)
    | some ps =>
        ({ txns := st.txns ++
             [{ key := key, allocated := ps, startTime := now, clientToken := clientToken }],
           objects := (key, ObjState.Putting) :: st.objects },
         PutStartResult.placements ps)

/-- Modelled from the spec: PutEnd (spec section 4.2) — NotFound without a
matching transaction, except that re-invocation after success is a no-op
success; otherwise deletes the transaction and sets the object Complete. -/
def putEnd (st : DirState) (key : String) : DirState × AckResult :=
  if hasTxn st key then
    ({ txns := st.txns.filter fun t => !(t.key == key),
       objects := (key, ObjState.Complete) ::
         st.objects.filter fun o => !(o.1 == key) },
     AckResult.ack)
  else if isComplete st key then (st, AckResult.ack)
  else (st, AckResult.notFound)

/-- Modelled from the spec: PutRevoke (spec section 4.2) — NotFound
without a transaction; otherwise deletes the transaction and the object
entirely. -/
def putRevoke (st : DirState) (key : String) : DirState × AckResult :=
  if hasTxn st key then
    ({ txns := st.txns.filter fun t => !(t.key == key),
       objects := st.objects.filter fun o => !(o.1 == key) },
     AckResult.ack)
  else (st, AckResult.notFound)

/-- Modelled from the spec: Remove (spec section 4.2) — NotFound if the
object is absent; otherwise deletes the object and any in-flight
transaction (implicit revoke). -/
def removeObject (st : DirState) (key : String) : DirState × AckResult :=
  if (st.objects.lookup key).isSome then
    ({ txns := st.txns.filter fun t => !(t.key == key),
       objects := st.objects.filter fun o => !(o.1 == key) },
     AckResult.ack)
  else (st, AckResult.notFound)

/-- One mutating directory operation. -/
inductive DirOp where
  | opPutStart (key : String) (clientToken now : Nat)
      (alloc : Option (List ReplicaPlacement)) : DirOp
  | opPutEnd (key : String) : DirOp
  | opPutRevoke (key : String) : DirOp
  | opRemove (key : String) : DirOp

/-- The state after one directory operation. -/
def stepDir (st : DirState) : DirOp → DirState
  | DirOp.opPutStart key c n alloc => (putStart st key c n alloc).1
  | DirOp.opPutEnd key => (putEnd st key).1
  | DirOp.opPutRevoke key => (putRevoke st key).1
  | DirOp.opRemove key => (removeObject st key).1

/-- The invariant of spec section 3: at most one active PutTransaction per
object key, expressed as distinctness of the transaction keys. -/
def txnKeysNodup (st : DirState) : Prop :=
  (st.txns.map PutTransaction.key).Nodup

/-- A serialized batch of PutStart calls racing on one key: each request
carries a client token, a start time, and its allocation outcome; the
per-key lock admits them in list order. -/
def runPutStarts (st : DirState) (key : String)
    (reqs : List (Nat × Nat × Option (List ReplicaPlacement))) :
    DirState × List PutStartResult :=
  match reqs with
  | [] => (st, [])
  | r :: rest =>
      let u := putStart st key r.1 r.2.1 r.2.2
      let v := runPutStarts u.1 key rest
      (v.1, u.2 :: v.2)

/-- Filtering the transaction list preserves distinctness of keys. -/
theorem txnKeysNodup_filter (st : DirState) (p : PutTransaction → Bool)
    (os : List (String × ObjState)) (h : txnKeysNodup st) :
    txnKeysNodup { txns := st.txns.filter p, objects := os } :=
  List.Nodup.sublist
    (List.Sublist.map PutTransaction.key (List.filter_sublist st.txns)) h

/-- Once a transaction for the key is active, every further PutStart on
that key leaves the state unchanged and returns Conflict. -/
theorem runPutStarts_conflict (key : String)
    (reqs : List (Nat × Nat × Option (List ReplicaPlacement)))
    (st : DirState) (h : hasTxn st key = true) :
    runPutStarts st key reqs =
      (st, List.replicate reqs.length PutStartResult.conflict) := by
  induction reqs generalizing st with
  | nil => rfl
  | cons r rest ih =>
      have hcond : (hasTxn st key || isComplete st key) = true := by
        simp [h]
      simp [runPutStarts, putStart, hcond, ih st h, List.replicate_succ]

/-- C8: at most one active PutTransaction exists per key at every instant
— the empty directory satisfies the invariant, every operation preserves
it, and when racing PutStart calls on one free key are admitted by the
per-key lock one after another, the first succeeds with its allocated
placements and every later one fails with Conflict. -/
theorem at_most_one_put_transaction_per_key (st : DirState) (op : DirOp)
    (key : String) (clientToken now : Nat) (ps : List ReplicaPlacement)
    (reqs : List (Nat × Nat × Option (List ReplicaPlacement)))
    (hinv : txnKeysNodup st)
    (hfree : hasTxn st key = false)
    (hnotc : isComplete st key = false) :
    txnKeysNodup { txns := [], objects := [] } ∧
    txnKeysNodup (stepDir st op) ∧
    (runPutStarts st key ((clientToken, now, some ps) :: reqs)).2 =
      PutStartResult.placements ps ::
        List.replicate reqs.length PutStartResult.conflict := by
  refine ⟨List.nodup_nil, ?_, ?_⟩
  · cases op with
    | opPutStart k c n alloc =>
        simp only [stepDir]
        by_cases hc : (hasTxn st k || isComplete st k) = true
        · simpa [putStart, hc] using hinv
        · cases alloc with
          | none => simpa [putStart, hc] using hinv
          | some qs =>
              have hnot : hasTxn st k = false := by
                cases hh : hasTxn st k with
                | false => rfl
                | true => exact absurd (by simp [hh]) hc
              have hk : k ∉ st.txns.map PutTransaction.key := by
                intro hmem
                rcases List.mem_map.1 hmem with ⟨t, ht, he⟩
                have htrue : hasTxn st k = true := by
                  simp only [hasTxn, List.any_eq_true]
                  exact ⟨t, ht, by simp [he]⟩
                rw [htrue] at hnot
                simp at hnot
              have hres : txnKeysNodup
                  { txns := st.txns ++
                      [{ key := k, allocated := qs, startTime := n,
                         clientToken := c }],
                    objects := (k, ObjState.Putting) :: st.objects } := by
                simp only [txnKeysNodup, List.map_append, List.map_cons,
                  List.map_nil]
                exact List.Nodup.append hinv (List.nodup_singleton k)
                  (List.disjoint_singleton.2 hk)
              simpa [putStart, hc] using hres
    | opPutEnd k =>
        simp only [stepDir]
        by_cases h : hasTxn st k = true
        · have hres := txnKeysNodup_filter st (fun t => !(t.key == k))
            ((k, ObjState.Complete) :: st.objects.filter fun o => !(o.1 == k)) hinv
          simpa [putEnd, h] using hres
        · by_cases h2 : isComplete st k = true <;>
            simpa [putEnd, h, h2] using hinv
    | opPutRevoke k =>
        simp only [stepDir]
        by_cases h : hasTxn st k = true
        · have hres := txnKeysNodup_filter st (fun t => !(t.key == k))
            (st.objects.filter fun o => !(o.1 == k)) hinv
          simpa [putRevoke, h] using hres
        · simpa [putRevoke, h] using hinv
    | opRemove k =>
        simp only [stepDir]
        by_cases h : (st.objects.lookup k).isSome = true
        · have hres := txnKeysNodup_filter st (fun t => !(t.key == k))
            (st.objects.filter fun o => !(o.1 == k)) hinv
          simpa [removeObject, h] using hres
        · simpa [removeObject, h] using hinv
  · have hcond : (hasTxn st key || isComplete st key) = false := by
      simp [hfree, hnotc]
    have hfirst : putStart st key clientToken now (some ps) =
        ({ txns := st.txns ++
             [{ key := key, allocated := ps, startTime := now,
                clientToken := clientToken }],
           objects := (key, ObjState.Putting) :: st.objects },
         PutStartResult.placements ps) := by
      simp [putStart, hcond]
    have hafter : hasTxn
        { txns := st.txns ++
            [{ key := key, allocated := ps, startTime := now,
               clientToken := clientToken }],
          objects := (key, ObjState.Putting) :: st.objects } key = true := by
      simp [hasTxn]
    simp [runPutStarts, hfirst, runPutStarts_conflict key reqs _ hafter]

/-- Witness for C8: the empty directory, a PutEnd step on another key, and
two PutStart calls racing on the key k2 — the first wins placements on
segment 1, the second gets Conflict. -/
theorem at_most_one_put_transaction_per_key_witness :
    txnKeysNodup { txns := [], objects := [] } ∧
    hasTxn { txns := [], objects := [] } "k2" = false ∧
    isComplete { txns := [], objects := [] } "k2" = false ∧
    (txnKeysNodup { txns := [], objects := [] } ∧
      txnKeysNodup (stepDir { txns := [], objects := [] } (DirOp.opPutEnd "x")) ∧
      (runPutStarts { txns := [], objects := [] } "k2"
          ((7, 100, some [{ segment := 1, offset := 0, length := 100 }]) ::
            [(8, 101, some [{ segment := 2, offset := 0, length := 100 }])])).2 =
        PutStartResult.placements [{ segment := 1, offset := 0, length := 100 }] ::
          List.replicate 1 PutStartResult.conflict) :=
  ⟨List.nodup_nil, by decide, by decide,
    at_most_one_put_transaction_per_key { txns := [], objects := [] }
      (DirOp.opPutEnd "x") "k2" 7 100
      [{ segment := 1, offset := 0, length := 100 }]
      [(8, 101, some [{ segment := 2, offset := 0, length := 100 }])]
      List.nodup_nil (by decide) (by decide)⟩

end Mooncake
